import Mathlib

/-!
Verification of the folly Arena block-acquisition engine
(src/folly/memory/Arena-inl.h) against its natural-language specification.

The embedding translates the slow allocation path, the merge operation and
the Block allocation helper into Lean functions over a record of the arena
state.  C++ size_t values are modelled as Nat with an explicit wrap-around
modulus 2 ^ 64 at every place where the C++ code performs unchecked
unsigned arithmetic.  Raw memory addresses are modelled as plain natural
numbers.  The backing allocator (an external collaborator, see section 6 of
the specification) is a parameter consisting of a fallible raw-memory
source and the goodSize sizing hint.

Parts of the repository that are declared in Arena.h (which is not part of
src): the fast bump path of allocate, the totalSize accessor and the
kNoSizeLimit sentinel.  These are modelled from the specification and are
marked as such in their doc comments.
-/

set_option maxRecDepth 4000

namespace folly

/-- Number of values of the C++ type size_t (64-bit build). -/
def size_t_card : Nat := 2 ^ 64

/-- Wrapping subtraction of size_t values, as performed by the C++
expression a - b for unsigned a and b below 2 ^ 64. -/
def usub (a b : Nat) : Nat := (a + (size_t_card - b)) % size_t_card

/-- folly checked_add for size_t: returns the sum when it is representable
and signals overflow (none) otherwise. -/
def checked_add (a b : Nat) : Option Nat :=
  if a + b < size_t_card then some (a + b) else none

/-- Modelled from the spec: the sentinel value of sizeLimit meaning
"unbounded".  Its declaration lives in Arena.h, which is not part of src;
the specification only says it is a dedicated sentinel value. -/
def kNoSizeLimit : Nat := size_t_card - 1

/-- The backing allocator interface (external collaborator):
allocMem n returns the base address of a fresh chunk of at least n bytes,
or none when exhausted; goodSize is the sizing hint used for slack
rounding. -/
structure Backing where
  allocMem : Nat → Option Nat
  goodSize : Nat → Nat

/-- The contract the specification imposes on the sizing hint:
goodSize returns at least the requested number of bytes, and its result is
a size_t value. -/
def allocContract (B : Backing) : Prop :=
  ∀ n, n < size_t_card → n ≤ B.goodSize n ∧ B.goodSize n < size_t_card

/-- A backing allocator whose sizing hint performs no slack rounding:
goodSize returns exactly the requested number of bytes. -/
def noSlackContract (B : Backing) : Prop :=
  ∀ n, n < size_t_card → B.goodSize n = n

/-- One backing-memory block owned by an arena.  start is the address of
the usable data region (just past the in-place header), usable its size in
bytes.  The field big is a ghost annotation recording whether the block
was created by the oversized branch of allocateSlow; it has no run-time
counterpart and does not influence any operation. -/
structure Block where
  start : Nat
  usable : Nat
  big : Bool
deriving DecidableEq

/-- Construction-time configuration of an arena (Arena.h stores these as
the fields minBlockSize_ and sizeLimit_; headerSize models sizeof(Block),
the bookkeeping prefix of every backing chunk). -/
structure ArenaConfig where
  minBlockSize : Nat
  sizeLimit : Nat
  headerSize : Nat
deriving DecidableEq

/-- The mutable state of an arena: the intrusive block list blocks_ (head
of the list = front), the bump window ptr_ / end_ (none models nullptr)
and the cumulative byte counter totalAllocatedSize_. -/
structure Arena where
  blocks : List Block
  ptr : Option Nat
  end_ : Option Nat
  totalAllocatedSize : Nat
deriving DecidableEq

/-- A freshly constructed arena: no blocks, null bump window, zero total. -/
def Arena.empty : Arena := ⟨[], none, none, 0⟩

/-- Modelled from the spec: the read-only query totalSize() returning the
cumulative bytes acquired; its declaration lives in Arena.h, which is not
part of src. -/
def Arena.totalSize (a : Arena) : Nat := a.totalAllocatedSize

/-- The three failure kinds named by the specification.  They identify the
condition under which the slow path fails; the exception object the C++
caller observes is given by thrownException below. -/
inductive ArenaError where
  | arithmeticOverflow
  | resourceLimitExceeded
  | backingAllocationFailure
deriving DecidableEq

/-- C++ exception types relevant to the caller of Arena operations. -/
inductive CppExceptionType where
  | badAlloc
  | lengthError
deriving DecidableEq

/-- The exception the C++ code throws for each failure kind, read off the
throw sites of Arena-inl.h: the overflow check throws bad_alloc, the
size-limit check throws bad_alloc, and the backing allocator signals
exhaustion with bad_alloc. -/
def thrownException : ArenaError → CppExceptionType
  | .arithmeticOverflow => .badAlloc
  | .resourceLimitExceeded => .badAlloc
  | .backingAllocationFailure => .badAlloc

instance : DecidableEq (Except ArenaError Nat) := fun x y =>
  match x, y with
  | .ok a, .ok b =>
      if h : a = b then .isTrue (by rw [h])
      else .isFalse (by intro hc; injection hc; contradiction)
  | .error a, .error b =>
      if h : a = b then .isTrue (by rw [h])
      else .isFalse (by intro hc; injection hc; contradiction)
  | .ok _, .error _ => .isFalse (by intro hc; cases hc)
  | .error _, .ok _ => .isFalse (by intro hc; cases hc)

/-- The observable outcome of one call into the arena: the returned
address or the failure kind, the arena state after the call (the C++
object survives a throw, so failures carry the unchanged state), and the
list of chunk sizes requested from the backing allocator during the call
(used to express "fails before any backing-allocation attempt"). -/
structure AllocOutcome where
  result : Except ArenaError Nat
  state : Arena
  backingCalls : List Nat
deriving DecidableEq

/-- The chunk size Block::allocate requests from the backing allocator:
sizeof(Block) + size, rounded up by the goodSize hint when allowSlack is
set. -/
def Block.allocRequest (B : Backing) (headerSize size : Nat) (allowSlack : Bool) : Nat :=
  cond allowSlack (B.goodSize (headerSize + size)) (headerSize + size)

/-- Arena::Block::allocate: requests a chunk, constructs the header in
place at its base and returns the pair of the data start address
(base + sizeof(Block)) and the usable size (allocated bytes minus the
header).  The subtraction is size_t subtraction. -/
def Block.allocate (B : Backing) (headerSize size : Nat) (allowSlack : Bool) :
    Option (Nat × Nat) :=
  match B.allocMem (Block.allocRequest B headerSize size allowSlack) with
  | none => none
  | some base =>
      some (base + headerSize, usub (Block.allocRequest B headerSize size allowSlack) headerSize)

/-- Arena::allocateSlow, translated clause by clause from Arena-inl.h:
checked_add of max(size, minBlockSize()) and sizeof(Block); the size-limit
check with size_t subtraction; then either the oversized branch (exact
size, no slack, push_back, bump window untouched) or the normal branch
(minBlockSize with slack, push_front, new bump window); finally
totalAllocatedSize_ += usable + sizeof(Block) with unsigned wrap-around. -/
def Arena.allocateSlow (cfg : ArenaConfig) (B : Backing) (a : Arena) (size : Nat) :
    AllocOutcome :=
  match checked_add (max size cfg.minBlockSize) cfg.headerSize with
  | none => ⟨.error .arithmeticOverflow, a, []⟩
  | some allocSize =>
    if cfg.sizeLimit ≠ kNoSizeLimit ∧ usub cfg.sizeLimit a.totalAllocatedSize < allocSize then
      ⟨.error .resourceLimitExceeded, a, []⟩
    else if cfg.minBlockSize < size then
      match Block.allocate B cfg.headerSize size false with
      | none =>
          ⟨.error .backingAllocationFailure, a, [Block.allocRequest B cfg.headerSize size false]⟩
      | some (start, usable) =>
          ⟨.ok start,
           { a with
             blocks := a.blocks ++ [{ start := start, usable := usable, big := true }],
             totalAllocatedSize :=
               (a.totalAllocatedSize + (usable + cfg.headerSize)) % size_t_card },
           [Block.allocRequest B cfg.headerSize size false]⟩
    else
      match Block.allocate B cfg.headerSize cfg.minBlockSize true with
      | none =>
          ⟨.error .backingAllocationFailure, a,
           [Block.allocRequest B cfg.headerSize cfg.minBlockSize true]⟩
      | some (start, usable) =>
          ⟨.ok start,
           { blocks := { start := start, usable := usable, big := false } :: a.blocks,
             ptr := some (start + size),
             end_ := some (start + usable),
             totalAllocatedSize :=
               (a.totalAllocatedSize + (usable + cfg.headerSize)) % size_t_card },
           [Block.allocRequest B cfg.headerSize cfg.minBlockSize true]⟩

/-- Modelled from the spec: Arena::allocate with its fast bump path (the
inline part lives in Arena.h, which is not part of src).  When the bump
window is non-null and end - ptr ≥ size the request is served at ptr and
ptr advances by size with no backing-allocator call; otherwise the call
falls through to allocateSlow. -/
def Arena.allocate (cfg : ArenaConfig) (B : Backing) (a : Arena) (size : Nat) :
    AllocOutcome :=
  match a.ptr, a.end_ with
  | some p, some e =>
      if size ≤ e - p then ⟨.ok p, { a with ptr := some (p + size) }, []⟩
      else Arena.allocateSlow cfg B a size
  | _, _ => Arena.allocateSlow cfg B a size

/-- Arena::merge: splice the donor block list onto the front of the
recipient list, add the donor total into the recipient total (unsigned
wrap-around), and reset the donor to the empty state.  Returns
(recipient, donor) after the call. -/
def Arena.merge (a other : Arena) : Arena × Arena :=
  ({ a with
     blocks := other.blocks ++ a.blocks,
     totalAllocatedSize :=
       (a.totalAllocatedSize + other.totalAllocatedSize) % size_t_card },
   { other with blocks := [], ptr := none, end_ := none, totalAllocatedSize := 0 })

/-- States of an arena reachable from a fresh arena under a fixed
configuration.  P restricts the backing allocators used by the individual
allocate calls (a different allocator may serve every call), and M gates
the merge steps: with M := False only allocate steps are available, with
M := True arbitrary merges with other reachable arenas are allowed, in
both roles. -/
inductive Reach (cfg : ArenaConfig) (P : Backing → Prop) (M : Prop) : Arena → Prop where
  | init : Reach cfg P M Arena.empty
  | alloc (st : Arena) (B : Backing) (size : Nat) (hB : P B)
      (h : Reach cfg P M st) :
      Reach cfg P M (Arena.allocate cfg B st size).state
  | mergeL (a b : Arena) (hm : M) (ha : Reach cfg P M a) (hb : Reach cfg P M b) :
      Reach cfg P M (Arena.merge a b).1
  | mergeR (a b : Arena) (hm : M) (ha : Reach cfg P M a) (hb : Reach cfg P M b) :
      Reach cfg P M (Arena.merge a b).2

/-- The bump window describes the front element of the block list: when
ptr and end are non-null, the block list is non-empty, its head is a
normal (non-big) block, and ptr and end lie in the head as a suffix
window whose end is exactly the end of the usable region. -/
def frontOK : Option Nat → Option Nat → List Block → Prop
  | some p, some e, b :: _ =>
      b.big = false ∧ b.start ≤ p ∧ p ≤ e ∧ e = b.start + b.usable
  | some _, some _, [] => False
  | _, _, _ => True

instance frontOKDec : (o1 o2 : Option Nat) → (bs : List Block) → Decidable (frontOK o1 o2 bs)
  | some p, some e, b :: _ =>
      inferInstanceAs (Decidable (b.big = false ∧ b.start ≤ p ∧ p ≤ e ∧ e = b.start + b.usable))
  | some _, some _, [] => .isFalse (fun h => h)
  | none, _, _ => .isTrue trivial
  | some _, none, _ => .isTrue trivial

/-- The head of the block list is the current bump block. -/
def describesFront (st : Arena) : Prop := frontOK st.ptr st.end_ st.blocks

instance (st : Arena) : Decidable (describesFront st) :=
  frontOKDec st.ptr st.end_ st.blocks

/-- The bump window, when non-null, lies inside some normal (never big)
block of the block list, with end at the end of that block. -/
def windowInNormal (st : Arena) : Prop :=
  ∀ p e, st.ptr = some p → st.end_ = some e →
    ∃ b, b ∈ st.blocks ∧ b.big = false ∧ b.start ≤ p ∧ p ≤ e ∧ e = b.start + b.usable

/-! ### Arithmetic helper lemmas -/

lemma size_t_card_eq : size_t_card = 18446744073709551616 := by
  norm_num [size_t_card]

lemma usub_eq {a b : Nat} (hba : b ≤ a) (ha : a < size_t_card) : usub a b = a - b := by
  unfold usub
  rw [size_t_card_eq] at ha ⊢
  omega

lemma checked_add_eq_some {a b s : Nat} (h : checked_add a b = some s) :
    s = a + b ∧ a + b < size_t_card := by
  unfold checked_add at h
  by_cases hlt : a + b < size_t_card
  · rw [if_pos hlt] at h
    exact ⟨(Option.some.inj h).symm, hlt⟩
  · rw [if_neg hlt] at h
    cases h

/-! ### Concrete configurations and backing allocators used as inputs -/

/-- Configuration with minBlockSize 64, sizeLimit 100, header 16 bytes. -/
def cfgA : ArenaConfig := ⟨64, 100, 16⟩

/-- Configuration with minBlockSize 64, no size limit, header 16 bytes. -/
def cfgB : ArenaConfig := ⟨64, kNoSizeLimit, 16⟩

/-- Configuration with minBlockSize 2, sizeLimit 1000, header 8 bytes. -/
def cfgL : ArenaConfig := ⟨2, 1000, 8⟩

/-- An arena that has already accounted 990 bytes (10 below the limit of
cfgL) and has no usable bump window. -/
def stL : Arena := ⟨[], none, none, 990⟩

/-- An arena that has already accounted 95 bytes (5 below the limit of
cfgA) and has no usable bump window. -/
def stC6 : Arena := ⟨[], none, none, 95⟩

/-- Backing allocator with no slack rounding, serving addresses at 0. -/
def plainBacking : Backing := ⟨fun _ => some 0, fun n => n⟩

/-- Backing allocator with no slack rounding, serving addresses at 1000. -/
def bigBacking : Backing := ⟨fun _ => some 1000, fun n => n⟩

/-- Backing allocator whose sizing hint rounds requests up by 120 bytes
(capped at the largest size_t), as a malloc-style size-class hint would. -/
def slackBacking : Backing :=
  ⟨fun _ => some 0, fun n => min (n + 120) 18446744073709551615⟩

/-- An exhausted backing allocator: every raw-memory request fails. -/
def failBacking : Backing := ⟨fun _ => none, fun n => n⟩

lemma plainBacking_contract : allocContract plainBacking :=
  fun n hn => ⟨Nat.le_refl n, hn⟩

lemma plainBacking_noSlack : noSlackContract plainBacking :=
  fun _ _ => rfl

lemma bigBacking_contract : allocContract bigBacking :=
  fun n hn => ⟨Nat.le_refl n, hn⟩

lemma slackBacking_contract : allocContract slackBacking := by
  intro n hn
  have h : slackBacking.goodSize n = min (n + 120) 18446744073709551615 := rfl
  rw [h, size_t_card_eq] at *
  omega

/-! ### Case analysis of the allocation paths -/

/-- Exhaustive description of the state after allocateSlow: either the
call failed and the state is unchanged, or the oversized branch appended
a block of exactly the requested usable size at the back, or the normal
branch pushed a fresh bump block at the front. -/
lemma allocateSlow_cases (cfg : ArenaConfig) (B : Backing) (st : Arena) (size : Nat) :
    (Arena.allocateSlow cfg B st size).state = st ∨
    (∃ allocSize base,
      checked_add (max size cfg.minBlockSize) cfg.headerSize = some allocSize ∧
      ¬(cfg.sizeLimit ≠ kNoSizeLimit ∧
        usub cfg.sizeLimit st.totalAllocatedSize < allocSize) ∧
      cfg.minBlockSize < size ∧
      B.allocMem (cfg.headerSize + size) = some base ∧
      (Arena.allocateSlow cfg B st size).state =
        { st with
          blocks := st.blocks ++
            [{ start := base + cfg.headerSize,
               usable := usub (cfg.headerSize + size) cfg.headerSize, big := true }],
          totalAllocatedSize :=
            (st.totalAllocatedSize +
              (usub (cfg.headerSize + size) cfg.headerSize + cfg.headerSize)) %
              size_t_card }) ∨
    (∃ allocSize base,
      checked_add (max size cfg.minBlockSize) cfg.headerSize = some allocSize ∧
      ¬(cfg.sizeLimit ≠ kNoSizeLimit ∧
        usub cfg.sizeLimit st.totalAllocatedSize < allocSize) ∧
      size ≤ cfg.minBlockSize ∧
      B.allocMem (B.goodSize (cfg.headerSize + cfg.minBlockSize)) = some base ∧
      (Arena.allocateSlow cfg B st size).state =
        { blocks := { start := base + cfg.headerSize,
                      usable := usub (B.goodSize (cfg.headerSize + cfg.minBlockSize))
                        cfg.headerSize,
                      big := false } :: st.blocks,
          ptr := some (base + cfg.headerSize + size),
          end_ := some (base + cfg.headerSize +
            usub (B.goodSize (cfg.headerSize + cfg.minBlockSize)) cfg.headerSize),
          totalAllocatedSize :=
            (st.totalAllocatedSize +
              (usub (B.goodSize (cfg.headerSize + cfg.minBlockSize)) cfg.headerSize +
                cfg.headerSize)) % size_t_card }) := by
  unfold Arena.allocateSlow
  cases hc : checked_add (max size cfg.minBlockSize) cfg.headerSize with
  | none => left; rfl
  | some allocSize =>
    dsimp only
    by_cases hl : cfg.sizeLimit ≠ kNoSizeLimit ∧
        usub cfg.sizeLimit st.totalAllocatedSize < allocSize
    · rw [if_pos hl]; left; rfl
    · rw [if_neg hl]
      by_cases hs : cfg.minBlockSize < size
      · rw [if_pos hs]
        unfold Block.allocate Block.allocRequest
        simp only [Bool.cond_false]
        cases hm : B.allocMem (cfg.headerSize + size) with
        | none => left; rfl
        | some base =>
          right; left
          exact ⟨allocSize, base, rfl, hl, hs, rfl, rfl⟩
      · rw [if_neg hs]
        unfold Block.allocate Block.allocRequest
        simp only [Bool.cond_true]
        cases hm : B.allocMem (B.goodSize (cfg.headerSize + cfg.minBlockSize)) with
        | none => left; rfl
        | some base =>
          right; right
          exact ⟨allocSize, base, rfl, hl, Nat.le_of_not_lt hs, rfl, rfl⟩

/-- The allocate entry point either serves the request from the bump
window (fast path) or behaves exactly as allocateSlow. -/
lemma allocate_state_cases (cfg : ArenaConfig) (B : Backing) (st : Arena) (size : Nat) :
    (∃ p e, st.ptr = some p ∧ st.end_ = some e ∧ size ≤ e - p ∧
      Arena.allocate cfg B st size = ⟨.ok p, { st with ptr := some (p + size) }, []⟩) ∨
    Arena.allocate cfg B st size = Arena.allocateSlow cfg B st size := by
  unfold Arena.allocate
  cases hp : st.ptr with
  | none => right; rfl
  | some p =>
    cases he : st.end_ with
    | none => right; rfl
    | some e =>
      dsimp only
      by_cases hle : size ≤ e - p
      · rw [if_pos hle]
        exact Or.inl ⟨p, e, rfl, rfl, hle, rfl⟩
      · rw [if_neg hle]; right; rfl

/-! ### Invariant proofs -/

/-- On the normal branch the usable size of the fresh block is at least
minBlockSize, because the sizing hint never shrinks a request. -/
lemma normal_usable_ge {cfg : ArenaConfig} {B : Backing} {size allocSize : Nat}
    (hB : allocContract B)
    (hc : checked_add (max size cfg.minBlockSize) cfg.headerSize = some allocSize) :
    cfg.minBlockSize ≤ usub (B.goodSize (cfg.headerSize + cfg.minBlockSize)) cfg.headerSize := by
  obtain ⟨hv, hlt⟩ := checked_add_eq_some hc
  have h1 : cfg.headerSize + cfg.minBlockSize < size_t_card := by
    have := Nat.le_max_right size cfg.minBlockSize
    omega
  obtain ⟨hge, hlt2⟩ := hB _ h1
  rw [usub_eq (Nat.le_trans (Nat.le_add_right _ _) hge) hlt2]
  omega

/-- In every state reachable by allocate steps alone (no merge), the bump
window describes the front element of the block list, which is a normal
block. -/
lemma describesFront_reach (cfg : ArenaConfig) (st : Arena)
    (h : Reach cfg allocContract False st) : describesFront st := by
  induction h with
  | init => exact trivial
  | alloc st B size hB hr ih =>
    obtain ⟨bs, op, oe, tot⟩ := st
    rcases allocate_state_cases cfg B ⟨bs, op, oe, tot⟩ size with
      ⟨p, e, hp, he, hle, heq⟩ | heq
    · rw [heq]
      dsimp only at hp he
      subst hp; subst he
      unfold describesFront at ih ⊢
      dsimp only at ih ⊢
      cases bs with
      | nil => simp only [frontOK] at ih
      | cons b rest =>
        simp only [frontOK] at ih ⊢
        obtain ⟨h1, h2, h3, h4⟩ := ih
        exact ⟨h1, by omega, by omega, h4⟩
    · rw [heq]
      rcases allocateSlow_cases cfg B ⟨bs, op, oe, tot⟩ size with
        h0 | ⟨aS, base, hc, hl, hs, hm, hst⟩ | ⟨aS, base, hc, hl, hs, hm, hst⟩
      · rw [h0]; exact ih
      · rw [hst]
        unfold describesFront at ih ⊢
        dsimp only at ih ⊢
        cases op with
        | none => exact trivial
        | some p =>
          cases oe with
          | none => exact trivial
          | some e =>
            cases bs with
            | nil => simp only [frontOK] at ih
            | cons b rest => simpa only [frontOK, List.cons_append] using ih
      · rw [hst]
        unfold describesFront
        dsimp only
        have hub : size ≤
            usub (B.goodSize (cfg.headerSize + cfg.minBlockSize)) cfg.headerSize :=
          Nat.le_trans hs (normal_usable_ge hB hc)
        exact ⟨rfl, Nat.le_add_right _ _, by omega, rfl⟩
  | mergeL a b hm ha hb iha ihb => exact hm.elim
  | mergeR a b hm ha hb iha ihb => exact hm.elim

/-- In every reachable state, merges included, the bump window lies in a
normal block of the block list (never in a big block). -/
lemma windowInNormal_reach (cfg : ArenaConfig) (st : Arena)
    (h : Reach cfg allocContract True st) : windowInNormal st := by
  induction h with
  | init =>
    intro p e hp he
    simp [Arena.empty] at hp
  | alloc st B size hB hr ih =>
    obtain ⟨bs, op, oe, tot⟩ := st
    rcases allocate_state_cases cfg B ⟨bs, op, oe, tot⟩ size with
      ⟨p, e, hp, he, hle, heq⟩ | heq
    · rw [heq]
      dsimp only at hp he
      subst hp; subst he
      intro q f hq hf
      dsimp only at hq hf
      obtain rfl : p + size = q := Option.some.inj hq
      obtain rfl : e = f := Option.some.inj hf
      obtain ⟨b, hmem, h1, h2, h3, h4⟩ := ih p e rfl rfl
      exact ⟨b, hmem, h1, by omega, by omega, h4⟩
    · rw [heq]
      rcases allocateSlow_cases cfg B ⟨bs, op, oe, tot⟩ size with
        h0 | ⟨aS, base, hc, hl, hs, hm, hst⟩ | ⟨aS, base, hc, hl, hs, hm, hst⟩
      · rw [h0]; exact ih
      · rw [hst]
        intro q f hq hf
        dsimp only at hq hf
        obtain ⟨b, hmem, h1, h2, h3, h4⟩ := ih q f hq hf
        exact ⟨b, List.mem_append_left _ hmem, h1, h2, h3, h4⟩
      · rw [hst]
        intro q f hq hf
        dsimp only at hq hf
        obtain rfl : base + cfg.headerSize + size = q := Option.some.inj hq
        obtain rfl : base + cfg.headerSize +
            usub (B.goodSize (cfg.headerSize + cfg.minBlockSize)) cfg.headerSize = f :=
          Option.some.inj hf
        have hub : size ≤
            usub (B.goodSize (cfg.headerSize + cfg.minBlockSize)) cfg.headerSize :=
          Nat.le_trans hs (normal_usable_ge hB hc)
        exact ⟨_, List.mem_cons_self _ _, rfl, Nat.le_add_right _ _, by omega, rfl⟩
  | mergeL a b hm ha hb iha ihb =>
    intro p e hp he
    dsimp only [Arena.merge] at hp he ⊢
    obtain ⟨bl, hmem, h1, h2, h3, h4⟩ := iha p e hp he
    exact ⟨bl, List.mem_append.mpr (Or.inr hmem), h1, h2, h3, h4⟩
  | mergeR a b hm ha hb iha ihb =>
    intro p e hp he
    simp [Arena.merge] at hp

/-- With a backing allocator that performs no slack rounding, a finite
sizeLimit is a true ceiling on totalAllocatedSize in every state reachable
by allocate steps. -/
lemma total_le_of_noSlack (cfg : ArenaConfig) (hfin : cfg.sizeLimit ≠ kNoSizeLimit)
    (hcard : cfg.sizeLimit < size_t_card) (st : Arena)
    (h : Reach cfg noSlackContract False st) :
    st.totalAllocatedSize ≤ cfg.sizeLimit := by
  induction h with
  | init => exact Nat.zero_le _
  | alloc st B size hB hr ih =>
    rcases allocate_state_cases cfg B st size with ⟨p, e, hp, he, hle, heq⟩ | heq
    · rw [heq]; exact ih
    · rw [heq]
      rcases allocateSlow_cases cfg B st size with
        h0 | ⟨aS, base, hc, hl, hs, hm, hst⟩ | ⟨aS, base, hc, hl, hs, hm, hst⟩
      · rw [h0]; exact ih
      · rw [hst]
        dsimp only
        obtain ⟨hv, hltc⟩ := checked_add_eq_some hc
        have hmax : max size cfg.minBlockSize = size := Nat.max_eq_left (Nat.le_of_lt hs)
        have husable : usub (cfg.headerSize + size) cfg.headerSize = size := by
          rw [usub_eq (Nat.le_add_right _ _) (by omega)]
          omega
        have hund : aS ≤ usub cfg.sizeLimit st.totalAllocatedSize :=
          Nat.le_of_not_lt (fun hb => hl ⟨hfin, hb⟩)
        have hus : usub cfg.sizeLimit st.totalAllocatedSize =
            cfg.sizeLimit - st.totalAllocatedSize := usub_eq ih hcard
        rw [husable, Nat.mod_eq_of_lt (by omega)]
        omega
      · rw [hst]
        dsimp only
        obtain ⟨hv, hltc⟩ := checked_add_eq_some hc
        have hmax : max size cfg.minBlockSize = cfg.minBlockSize := Nat.max_eq_right hs
        have hmincard : cfg.headerSize + cfg.minBlockSize < size_t_card := by omega
        have hgood : B.goodSize (cfg.headerSize + cfg.minBlockSize) =
            cfg.headerSize + cfg.minBlockSize := hB _ hmincard
        have husable : usub (B.goodSize (cfg.headerSize + cfg.minBlockSize))
            cfg.headerSize = cfg.minBlockSize := by
          rw [hgood, usub_eq (Nat.le_add_right _ _) hmincard]
          omega
        have hund : aS ≤ usub cfg.sizeLimit st.totalAllocatedSize :=
          Nat.le_of_not_lt (fun hb => hl ⟨hfin, hb⟩)
        have hus : usub cfg.sizeLimit st.totalAllocatedSize =
            cfg.sizeLimit - st.totalAllocatedSize := usub_eq ih hcard
        rw [husable, Nat.mod_eq_of_lt (by omega)]
        omega
  | mergeL a b hm ha hb iha ihb => exact hm.elim
  | mergeR a b hm ha hb iha ihb => exact hm.elim

/-! ### Reachable states used as concrete inputs -/

/-- Arena after one small allocation (size 1) under cfgB. -/
def stA2 : Arena := (Arena.allocate cfgB plainBacking Arena.empty 1).state

/-- Arena after one big allocation (size 100 > minBlockSize 64) under
cfgB; its block list holds a single big block and its window is null. -/
def stB2 : Arena := (Arena.allocate cfgB bigBacking Arena.empty 100).state

/-- Recipient arena after merging stB2 into stA2: the big block of stB2
is now the front element while the bump window still points into the
normal block of stA2. -/
def stM2 : Arena := (Arena.merge stA2 stB2).1

/-- A recipient arena with one normal block and a live bump window. -/
def aW : Arena := ⟨[⟨16, 64, false⟩], some 20, some 80, 80⟩

/-- A donor arena holding one big block. -/
def bW : Arena := ⟨[⟨1016, 100, true⟩], none, none, 116⟩

/-! ### Claim C1 -/

/-- Claim C1 as frozen: under any spec-conforming backing allocator, a
finite sizeLimit bounds totalAllocatedSize in every state reachable by
allocate calls. -/
def C1claim : Prop :=
  ∀ cfg st, cfg.sizeLimit ≠ kNoSizeLimit →
    Reach cfg allocContract False st → Arena.totalSize st ≤ cfg.sizeLimit

/-- Claim C1 is false on the code: the size-limit check compares the
pre-rounding allocSize, so a slack-rounding goodSize (here rounding the
80-byte request of cfgA up to 200 bytes) pushes totalAllocatedSize to
200, past the sizeLimit of 100, on a single successful allocation. -/
theorem C1_counterexample : ¬ C1claim := by
  intro h
  have hr : Reach cfgA allocContract False
      (Arena.allocate cfgA slackBacking Arena.empty 1).state :=
    Reach.alloc Arena.empty slackBacking 1 slackBacking_contract Reach.init
  exact absurd (h cfgA _ (by decide) hr) (by decide)

/-- Claim C1 amended: when the backing allocator performs no slack
rounding, a finite sizeLimit below 2 ^ 64 bounds totalAllocatedSize in
every reachable state; and the limit case holds: under cfgL
(sizeLimit 1000) with prior accounted usage 990, a request whose new
block needs exactly 10 bytes succeeds and leaves totalSize at exactly the
limit. -/
theorem C1_theorem :
    (∀ cfg st, cfg.sizeLimit ≠ kNoSizeLimit → cfg.sizeLimit < size_t_card →
      Reach cfg noSlackContract False st → Arena.totalSize st ≤ cfg.sizeLimit) ∧
    (Arena.allocate cfgL plainBacking stL 2).result = .ok 8 ∧
    (Arena.allocate cfgL plainBacking stL 2).state.totalSize = cfgL.sizeLimit :=
  ⟨fun cfg st hfin hcard hr => total_le_of_noSlack cfg hfin hcard st hr,
   by decide, by decide⟩

/-- Witness: the amended bound instantiated at cfgL after one concrete
allocation step. -/
theorem C1_witness :
    cfgL.sizeLimit ≠ kNoSizeLimit ∧ cfgL.sizeLimit < size_t_card ∧
    Arena.totalSize (Arena.allocate cfgL plainBacking Arena.empty 1).state ≤
      cfgL.sizeLimit :=
  ⟨by decide, by decide,
   C1_theorem.1 cfgL _ (by decide) (by decide)
     (Reach.alloc Arena.empty plainBacking 1 plainBacking_noSlack Reach.init)⟩

/-! ### Claim C2 -/

/-- Claim C2 as frozen: in every state reachable by allocate and merge
operations, the non-null bump window describes the front element of the
block list, a normal block. -/
def C2claim : Prop :=
  ∀ cfg st, Reach cfg allocContract True st → describesFront st

/-- Claim C2 is false on the code: merging a donor whose only block is
big splices that big block onto the front of the recipient list while
leaving the recipient window untouched, so afterwards ptr and end
describe a non-front block and the front element is a big block. -/
theorem C2_counterexample : ¬ C2claim := by
  intro h
  have hA : Reach cfgB allocContract True stA2 :=
    Reach.alloc Arena.empty plainBacking 1 plainBacking_contract Reach.init
  have hB2 : Reach cfgB allocContract True stB2 :=
    Reach.alloc Arena.empty bigBacking 100 bigBacking_contract Reach.init
  exact absurd (h cfgB stM2 (Reach.mergeL stA2 stB2 trivial hA hB2)) (by decide)

/-- Claim C2 amended: in every state reachable without merge the non-null
window describes the front element, a normal block; and in every
reachable state, merges included, the window lies inside some normal
(never big) block of the list. -/
theorem C2_theorem :
    (∀ cfg st, Reach cfg allocContract False st → describesFront st) ∧
    (∀ cfg st, Reach cfg allocContract True st → windowInNormal st) :=
  ⟨describesFront_reach, windowInNormal_reach⟩

/-- Witness: both amended parts instantiated at concrete reachable
states. -/
theorem C2_witness : describesFront stA2 ∧ windowInNormal stM2 :=
  ⟨C2_theorem.1 cfgB stA2
     (Reach.alloc Arena.empty plainBacking 1 plainBacking_contract Reach.init),
   C2_theorem.2 cfgB stM2
     (Reach.mergeL stA2 stB2 trivial
       (Reach.alloc Arena.empty plainBacking 1 plainBacking_contract Reach.init)
       (Reach.alloc Arena.empty bigBacking 100 bigBacking_contract Reach.init))⟩

/-! ### Claim C3 -/

/-- Claim C3: a big request (size > minBlockSize) that passes the
overflow and limit checks and whose backing allocation succeeds gets a
dedicated block of usable size exactly the requested size (no slack),
appended at the back of the block list, with ptr and end left untouched,
so the bump sequence of small allocations continues unaffected. -/
theorem C3_theorem (cfg : ArenaConfig) (B : Backing) (st : Arena)
    (size allocSize base : Nat)
    (hbig : cfg.minBlockSize < size)
    (hadd : checked_add (max size cfg.minBlockSize) cfg.headerSize = some allocSize)
    (hlim : ¬(cfg.sizeLimit ≠ kNoSizeLimit ∧
      usub cfg.sizeLimit st.totalAllocatedSize < allocSize))
    (hmem : B.allocMem (cfg.headerSize + size) = some base) :
    Arena.allocateSlow cfg B st size =
      ⟨.ok (base + cfg.headerSize),
       { st with
         blocks := st.blocks ++
           [{ start := base + cfg.headerSize, usable := size, big := true }],
         totalAllocatedSize :=
           (st.totalAllocatedSize + (size + cfg.headerSize)) % size_t_card },
       [cfg.headerSize + size]⟩ ∧
    (Arena.allocateSlow cfg B st size).state.ptr = st.ptr ∧
    (Arena.allocateSlow cfg B st size).state.end_ = st.end_ := by
  have husable : usub (cfg.headerSize + size) cfg.headerSize = size := by
    obtain ⟨hv, hlt⟩ := checked_add_eq_some hadd
    have hmax : max size cfg.minBlockSize = size := Nat.max_eq_left (Nat.le_of_lt hbig)
    rw [usub_eq (Nat.le_add_right _ _) (by omega)]
    omega
  have heq : Arena.allocateSlow cfg B st size =
      ⟨.ok (base + cfg.headerSize),
       { st with
         blocks := st.blocks ++
           [{ start := base + cfg.headerSize, usable := size, big := true }],
         totalAllocatedSize :=
           (st.totalAllocatedSize + (size + cfg.headerSize)) % size_t_card },
       [cfg.headerSize + size]⟩ := by
    unfold Arena.allocateSlow
    rw [hadd]
    dsimp only
    rw [if_neg hlim, if_pos hbig]
    unfold Block.allocate Block.allocRequest
    simp only [Bool.cond_false]
    rw [hmem]
    dsimp only
    rw [husable]
  exact ⟨heq, by rw [heq], by rw [heq]⟩

/-- Witness: the big-allocation frame property at a concrete run. -/
theorem C3_witness :
    cfgB.minBlockSize < 100 ∧
    (Arena.allocateSlow cfgB bigBacking Arena.empty 100).state.ptr = Arena.empty.ptr ∧
    (Arena.allocateSlow cfgB bigBacking Arena.empty 100).state.end_ = Arena.empty.end_ :=
  ⟨by decide,
   (C3_theorem cfgB bigBacking Arena.empty 100 116 1000
     (by decide) (by decide) (by decide) (by decide)).2.1,
   (C3_theorem cfgB bigBacking Arena.empty 100 116 1000
     (by decide) (by decide) (by decide) (by decide)).2.2⟩

/-! ### Claim C4 -/

/-- Claim C4: after merge, the recipient block list is the donor list
spliced onto the front of the recipient list, the recipient totalSize is
the sum of the two original totals (no wrap-around assumed), and the
donor is reset to the empty state: block list cleared with every block
retained by the recipient (so no disposal can have been triggered), null
window, zero total. -/
theorem C4_theorem (a b : Arena)
    (hsum : a.totalAllocatedSize + b.totalAllocatedSize < size_t_card) :
    (Arena.merge a b).1.blocks = b.blocks ++ a.blocks ∧
    (Arena.merge a b).1.totalSize = a.totalSize + b.totalSize ∧
    (Arena.merge a b).2.blocks = [] ∧
    (Arena.merge a b).2.ptr = none ∧
    (Arena.merge a b).2.end_ = none ∧
    (Arena.merge a b).2.totalSize = 0 := by
  refine ⟨rfl, ?_, rfl, rfl, rfl, rfl⟩
  show (a.totalAllocatedSize + b.totalAllocatedSize) % size_t_card = _
  rw [Nat.mod_eq_of_lt hsum]
  rfl

/-- Witness: the merge postconditions at two concrete arenas. -/
theorem C4_witness :
    aW.totalAllocatedSize + bW.totalAllocatedSize < size_t_card ∧
    (Arena.merge aW bW).1.totalSize = aW.totalSize + bW.totalSize ∧
    (Arena.merge aW bW).2.totalSize = 0 :=
  ⟨by decide, (C4_theorem aW bW (by decide)).2.1,
   (C4_theorem aW bW (by decide)).2.2.2.2.2⟩

/-! ### Claim C5 -/

/-- Claim C5: when the overflow-checked addition
max(size, minBlockSize) + headerSize overflows the size_t range, the slow
path fails with ArithmeticOverflow, makes no backing-allocation attempt
(empty request trace), and leaves the arena state byte-for-byte
unchanged. -/
theorem C5_theorem (cfg : ArenaConfig) (B : Backing) (st : Arena) (size : Nat)
    (hover : size_t_card ≤ max size cfg.minBlockSize + cfg.headerSize) :
    Arena.allocateSlow cfg B st size = ⟨.error .arithmeticOverflow, st, []⟩ := by
  have hc : checked_add (max size cfg.minBlockSize) cfg.headerSize = none := by
    unfold checked_add
    rw [if_neg (by omega)]
  unfold Arena.allocateSlow
  rw [hc]

/-- Witness: a request one below the size_t maximum overflows with the
16-byte header of cfgB. -/
theorem C5_witness :
    size_t_card ≤ max (size_t_card - 1) cfgB.minBlockSize + cfgB.headerSize ∧
    Arena.allocateSlow cfgB plainBacking Arena.empty (size_t_card - 1) =
      ⟨.error .arithmeticOverflow, Arena.empty, []⟩ :=
  ⟨by decide,
   C5_theorem cfgB plainBacking Arena.empty (size_t_card - 1) (by decide)⟩

/-! ### Claim C6 -/

/-- Claim C6: with a finite sizeLimit, a computed allocSize exceeding
sizeLimit - totalAllocatedSize (size_t subtraction, as in the source)
makes the slow path fail with ResourceLimitExceeded, with no
backing-allocation attempt and the arena state unchanged. -/
theorem C6_theorem (cfg : ArenaConfig) (B : Backing) (st : Arena)
    (size allocSize : Nat)
    (hadd : checked_add (max size cfg.minBlockSize) cfg.headerSize = some allocSize)
    (hfin : cfg.sizeLimit ≠ kNoSizeLimit)
    (hgt : usub cfg.sizeLimit st.totalAllocatedSize < allocSize) :
    Arena.allocateSlow cfg B st size = ⟨.error .resourceLimitExceeded, st, []⟩ := by
  unfold Arena.allocateSlow
  rw [hadd]
  dsimp only
  rw [if_pos ⟨hfin, hgt⟩]

/-- Witness: under cfgA (limit 100) with 95 bytes already accounted, a
1-byte request needs an 80-byte block and is rejected. -/
theorem C6_witness :
    checked_add (max 1 cfgA.minBlockSize) cfgA.headerSize = some 80 ∧
    cfgA.sizeLimit ≠ kNoSizeLimit ∧
    usub cfgA.sizeLimit stC6.totalAllocatedSize < 80 ∧
    Arena.allocateSlow cfgA plainBacking stC6 1 =
      ⟨.error .resourceLimitExceeded, stC6, []⟩ :=
  ⟨by decide, by decide, by decide,
   C6_theorem cfgA plainBacking stC6 1 80 (by decide) (by decide) (by decide)⟩

/-! ### Claim C7 -/

/-- Claim C7: a small request (size ≤ minBlockSize) that reaches the slow
path and passes both checks acquires a block of at least minBlockSize
usable bytes (slack rounding allowed), pushes it to the front of the
block list, sets ptr to blockStart + size and end to
blockStart + usableSize, adds exactly usableSize + headerSize to
totalAllocatedSize, and returns blockStart. -/
theorem C7_theorem (cfg : ArenaConfig) (B : Backing) (st : Arena)
    (size allocSize base : Nat)
    (hsmall : size ≤ cfg.minBlockSize)
    (hadd : checked_add (max size cfg.minBlockSize) cfg.headerSize = some allocSize)
    (hlim : ¬(cfg.sizeLimit ≠ kNoSizeLimit ∧
      usub cfg.sizeLimit st.totalAllocatedSize < allocSize))
    (hmem : B.allocMem (B.goodSize (cfg.headerSize + cfg.minBlockSize)) = some base)
    (hgood : cfg.headerSize + cfg.minBlockSize ≤
      B.goodSize (cfg.headerSize + cfg.minBlockSize))
    (hcard : B.goodSize (cfg.headerSize + cfg.minBlockSize) < size_t_card)
    (hwrap : st.totalAllocatedSize + B.goodSize (cfg.headerSize + cfg.minBlockSize) <
      size_t_card) :
    Arena.allocateSlow cfg B st size =
      ⟨.ok (base + cfg.headerSize),
       { blocks := { start := base + cfg.headerSize,
                     usable := B.goodSize (cfg.headerSize + cfg.minBlockSize) -
                       cfg.headerSize,
                     big := false } :: st.blocks,
         ptr := some (base + cfg.headerSize + size),
         end_ := some (base + cfg.headerSize +
           (B.goodSize (cfg.headerSize + cfg.minBlockSize) - cfg.headerSize)),
         totalAllocatedSize := st.totalAllocatedSize +
           ((B.goodSize (cfg.headerSize + cfg.minBlockSize) - cfg.headerSize) +
             cfg.headerSize) },
       [B.goodSize (cfg.headerSize + cfg.minBlockSize)]⟩ ∧
    cfg.minBlockSize ≤ B.goodSize (cfg.headerSize + cfg.minBlockSize) - cfg.headerSize := by
  have hh : cfg.headerSize ≤ B.goodSize (cfg.headerSize + cfg.minBlockSize) :=
    Nat.le_trans (Nat.le_add_right _ _) hgood
  have husable : usub (B.goodSize (cfg.headerSize + cfg.minBlockSize)) cfg.headerSize =
      B.goodSize (cfg.headerSize + cfg.minBlockSize) - cfg.headerSize :=
    usub_eq hh hcard
  constructor
  · unfold Arena.allocateSlow
    rw [hadd]
    dsimp only
    rw [if_neg hlim, if_neg (Nat.not_lt.mpr hsmall)]
    unfold Block.allocate Block.allocRequest
    simp only [Bool.cond_true]
    rw [hmem]
    dsimp only
    rw [husable, Nat.mod_eq_of_lt (by omega)]
  · omega

/-- Witness: the normal-path postcondition at a concrete 1-byte request
under cfgB served by plainBacking. -/
theorem C7_witness :
    (1 : Nat) ≤ cfgB.minBlockSize ∧
    Arena.allocateSlow cfgB plainBacking Arena.empty 1 =
      ⟨.ok 16, ⟨[⟨16, 64, false⟩], some 17, some 80, 80⟩, [80]⟩ ∧
    cfgB.minBlockSize ≤
      plainBacking.goodSize (cfgB.headerSize + cfgB.minBlockSize) - cfgB.headerSize :=
  ⟨by decide,
   (C7_theorem cfgB plainBacking Arena.empty 1 80 0
     (by decide) (by decide) (by decide) (by decide)
     (by decide) (by decide) (by decide)).1.trans (by decide),
   (C7_theorem cfgB plainBacking Arena.empty 1 80 0
     (by decide) (by decide) (by decide) (by decide)
     (by decide) (by decide) (by decide)).2⟩

/-! ### Claim C8 -/

/-- Claim C8: when the backing allocator cannot satisfy the chunk request
of the slow path, the call fails with BackingAllocationFailure and the
arena state (ptr, end, totalAllocatedSize, block list) is entirely
untouched: the allocation attempt fully fails with no partial mutation. -/
theorem C8_theorem (cfg : ArenaConfig) (B : Backing) (st : Arena)
    (size allocSize : Nat)
    (hadd : checked_add (max size cfg.minBlockSize) cfg.headerSize = some allocSize)
    (hlim : ¬(cfg.sizeLimit ≠ kNoSizeLimit ∧
      usub cfg.sizeLimit st.totalAllocatedSize < allocSize))
    (hmem : B.allocMem (if cfg.minBlockSize < size then cfg.headerSize + size
      else B.goodSize (cfg.headerSize + cfg.minBlockSize)) = none) :
    Arena.allocateSlow cfg B st size =
      ⟨.error .backingAllocationFailure, st,
       [if cfg.minBlockSize < size then cfg.headerSize + size
        else B.goodSize (cfg.headerSize + cfg.minBlockSize)]⟩ := by
  unfold Arena.allocateSlow
  rw [hadd]
  dsimp only
  rw [if_neg hlim]
  by_cases hs : cfg.minBlockSize < size
  · simp only [if_pos hs] at hmem ⊢
    unfold Block.allocate Block.allocRequest
    simp only [Bool.cond_false]
    rw [hmem]
  · simp only [if_neg hs] at hmem ⊢
    unfold Block.allocate Block.allocRequest
    simp only [Bool.cond_true]
    rw [hmem]

/-- Witness: an exhausted backing allocator fails a small request under
cfgB and the empty arena is unchanged. -/
theorem C8_witness :
    checked_add (max 1 cfgB.minBlockSize) cfgB.headerSize = some 80 ∧
    failBacking.allocMem (if cfgB.minBlockSize < 1 then cfgB.headerSize + 1
      else failBacking.goodSize (cfgB.headerSize + cfgB.minBlockSize)) = none ∧
    Arena.allocateSlow cfgB failBacking Arena.empty 1 =
      ⟨.error .backingAllocationFailure, Arena.empty, [80]⟩ :=
  ⟨by decide, by decide,
   (C8_theorem cfgB failBacking Arena.empty 1 80
     (by decide) (by decide) (by decide)).trans (by decide)⟩

/-! ### Claim C9 -/

/-- Claim C9 as frozen: an ArithmeticOverflow failure and a
ResourceLimitExceeded failure are distinguishable by the caller, that is,
the exceptions they raise differ. -/
def C9claim : Prop :=
  thrownException .arithmeticOverflow ≠ thrownException .resourceLimitExceeded

/-- Claim C9 is false on the code: both failure conditions are reachable
(shown by two concrete runs), but each throw site raises the same
exception type std::bad_alloc, so the caller cannot tell them apart. -/
theorem C9_counterexample :
    (Arena.allocateSlow cfgB plainBacking Arena.empty (size_t_card - 1)).result =
      .error .arithmeticOverflow ∧
    (Arena.allocateSlow cfgA plainBacking stC6 1).result =
      .error .resourceLimitExceeded ∧
    ¬ C9claim :=
  ⟨by decide, by decide, fun h => h rfl⟩

/-- Claim C9 amended: the two failure kinds are distinct conditions in
the design, but every failure kind is reported to the immediate caller as
the same exception type (std::bad_alloc), so overflow and limit failures
are not distinguishable by the caller from the exception alone. -/
theorem C9_theorem :
    ArenaError.arithmeticOverflow ≠ ArenaError.resourceLimitExceeded ∧
    ∀ e : ArenaError, thrownException e = CppExceptionType.badAlloc :=
  ⟨by decide, fun e => by cases e <;> rfl⟩

/-! ### Claim C10 -/

/-- Claim C10: merge leaves the recipient ptr and end fields unchanged,
preserving its in-flight bump window; only the block list and
totalAllocatedSize of the recipient are modified. -/
theorem C10_theorem (a b : Arena) :
    (Arena.merge a b).1.ptr = a.ptr ∧ (Arena.merge a b).1.end_ = a.end_ ∧
    (Arena.merge a b).1.blocks = b.blocks ++ a.blocks ∧
    (Arena.merge a b).1.totalAllocatedSize =
      (a.totalAllocatedSize + b.totalAllocatedSize) % size_t_card :=
  ⟨rfl, rfl, rfl, rfl⟩

end folly
